import Mathlib

/-!
Verification of the CGD training script (`train.py`).

The development shallowly embeds the training/evaluation control loop:
scalar tensor entries are modelled by `FVal` (a rational number, an
infinity, or NaN), tensors by lists of `FVal`, losses by rational
numbers, and the fallible training loop by `Except`.  External leaves
(the model forward pass, the two loss criteria, the optimizer) enter as
abstract data carried by `BatchData`/`EpochOutcome`/`Criteria`; the
control flow, the numerical-stability checks, the best-artifact and
checkpoint logic are translated from the source.
-/

set_option autoImplicit false

namespace CGD

/-- A floating-point scalar as it matters to the stability checks:
either a finite value (modelled exactly by a rational), an infinity,
or NaN. -/
inductive FVal where
  | finite (q : ℚ)
  | posInf
  | negInf
  | nan
deriving DecidableEq, Repr

/-- `torch.isnan` on one scalar. -/
def FVal.isNaNb : FVal → Bool
  | .nan => true
  | _ => false

/-- `torch.isfinite` on one scalar. -/
def FVal.isFiniteb : FVal → Bool
  | .finite _ => true
  | _ => false

/-- IEEE-style strict greater-than on scalars; any comparison with NaN
is false. -/
def FVal.gtb : FVal → FVal → Bool
  | .nan, _ => false
  | _, .nan => false
  | .posInf, .posInf => false
  | .posInf, _ => true
  | _, .posInf => false
  | .negInf, _ => false
  | .finite _, .negInf => true
  | .finite a, .finite b => decide (b < a)

/-- `torch.argmax` over one logit row: index of the greatest entry,
first occurrence winning. -/
def argmaxF : List FVal → ℕ
  | [] => 0
  | x :: rest =>
    let r := rest.foldl
      (fun (acc : FVal × ℕ × ℕ) v =>
        if v.gtb acc.1 then (v, acc.2.2, acc.2.2 + 1) else (acc.1, acc.2.1, acc.2.2 + 1))
      (x, 0, 1)
    r.2.1

/-- One training batch together with the forward-pass outputs the model
produced on it: `size` is `inputs.size(0)`, `labels` the ground-truth
labels, `features` the flattened embedding tensor and `logits` the
per-sample class-logit rows returned by `net(inputs)`. -/
structure BatchData where
  size : ℕ
  labels : List ℕ
  features : List FVal
  logits : List (List FVal)
deriving DecidableEq, Repr

/-- `features.isnan().any()` over a flattened tensor. -/
def tensorHasNaN (t : List FVal) : Bool := t.any FVal.isNaNb

/-- Every entry of the tensor is finite (no NaN, no infinity). -/
def tensorAllFinite (t : List FVal) : Bool := t.all FVal.isFiniteb

/-- The two loss criteria (`LabelSmoothingCrossEntropyLoss` and
`BatchHardTripletLoss` are constructed in `train.py` from `utils`,
which is outside the embedded core); they are pure scalar-valued
functions of the forward outputs and the labels. -/
structure Criteria where
  classLoss : List (List FVal) → List ℕ → ℚ
  featureLoss : List FVal → List ℕ → ℚ

/-- Errors the training loop can raise: `valueError` from the
`raise ValueError` stability checks, `zeroDivisionError` from
`total_loss / total_num` when no sample has been counted. -/
inductive TrainError where
  | valueError
  | zeroDivisionError
deriving DecidableEq, Repr

/-- Loop accumulator: `total_loss`, `total_correct`, `total_num`, and
the list of loss values handed to `loss.backward()` / `optim.step()`
so far (the last component instruments the optimizer interaction). -/
abbrev TrainAcc := ℚ × ℕ × ℕ × List ℚ

/-- One iteration of the `for inputs, labels in data_bar` loop of
`train` (train.py lines 22-40): compute the classification loss, run
the two NaN checks, compute the triplet loss, form the combined loss,
step the optimizer with it, and update the running totals (the running
mean shown by the progress bar divides by `total_num`, hence the
explicit zero-division case). -/
def processBatch (crit : Criteria) (acc : TrainAcc) (b : BatchData) :
    Except TrainError TrainAcc :=
  let classLoss := crit.classLoss b.logits b.labels
  if tensorHasNaN b.features then .error .valueError
  else if tensorHasNaN b.logits.flatten then .error .valueError
  else
    let featureLoss := crit.featureLoss b.features b.labels
    let loss := classLoss + featureLoss
    let preds := b.logits.map argmaxF
    let correct := (preds.zip b.labels).countP (fun p => decide (p.1 = p.2))
    let totalLoss := acc.1 + loss * (b.size : ℚ)
    let totalCorrect := acc.2.1 + correct
    let totalNum := acc.2.2.1 + b.size
    if totalNum = 0 then .error .zeroDivisionError
    else .ok (totalLoss, totalCorrect, totalNum, acc.2.2.2 ++ [loss])

/-- The batch loop of `train`, threading the accumulator through
`processBatch` and stopping at the first error. -/
def trainFold (crit : Criteria) : TrainAcc → List BatchData → Except TrainError TrainAcc
  | acc, [] => .ok acc
  | acc, b :: bs =>
    match processBatch crit acc b with
    | .error e => .error e
    | .ok acc2 => trainFold crit acc2 bs

/-- The body of `train` after the mode prologue (train.py lines 21-42):
run the batch loop from zeroed accumulators and return
`(total_loss / total_num, total_correct / total_num * 100)` together
with the instrumented list of per-batch losses given to the optimizer;
dividing by a zero `total_num` is a `zeroDivisionError`. -/
def trainLoop (crit : Criteria) (batches : List BatchData) :
    Except TrainError ((ℚ × ℚ) × List ℚ) :=
  match trainFold crit (0, 0, 0, []) batches with
  | .error e => .error e
  | .ok acc =>
    if acc.2.2.1 = 0 then .error .zeroDivisionError
    else .ok ((acc.1 / (acc.2.2.1 : ℚ), (acc.2.1 : ℚ) / (acc.2.2.1 : ℚ) * 100), acc.2.2.2)

/-- Mode flags of the network: `training` is the module-wide
train/eval flag, `bnTraining` the train/eval flag of the
normalization (batch-norm) layers. -/
structure NetMode where
  training : Bool
  bnTraining : Bool
deriving DecidableEq, Repr

/-- `net.train()`: puts every submodule, normalization layers
included, in training mode. -/
def netTrainMode (_ : NetMode) : NetMode := ⟨true, true⟩

/-- Modelled from the spec: `set_bn_eval` (defined in `model.py`,
which is not part of the embedded sources) is applied recursively by
`net.apply(set_bn_eval)` and forces the normalization layers back to
inference-statistics behaviour, leaving the rest of the model's mode
untouched. -/
def set_bn_eval (m : NetMode) : NetMode := ⟨m.training, false⟩

/-- The full `train` function (train.py lines 17-42): `net.train()`,
then `net.apply(set_bn_eval)`, then the batch loop.  The loop body
never touches the mode flags, so the returned mode is the mode for the
whole epoch. -/
def train (crit : Criteria) (mode : NetMode) (batches : List BatchData) :
    NetMode × Except TrainError ((ℚ × ℚ) × List ℚ) :=
  (set_bn_eval (netTrainMode mode), trainLoop crit batches)

/-- Dot-product similarity of two embedding vectors. -/
def simDot (x y : List ℚ) : ℚ := (List.zipWith (· * ·) x y).sum

/-- Modelled from the spec: within the ranking of all non-query items
by similarity to query `q` (descending, ties broken by stable original
order, first-encountered wins), the rank of item `j` is the number of
other non-query items placed strictly before it: those with larger
similarity, or equal similarity and smaller index. -/
def rankOf (embs : List (List ℚ)) (q j : ℕ) : ℕ :=
  ((List.range embs.length).filter (fun j2 =>
    j2 ≠ q ∧ j2 ≠ j ∧
      (simDot ((embs.getD q [])) (embs.getD j2 []) > simDot (embs.getD q []) (embs.getD j []) ∨
       (simDot (embs.getD q []) (embs.getD j2 []) = simDot (embs.getD q []) (embs.getD j []) ∧
        j2 < j)))).length

/-- Modelled from the spec: query `q` is a hit at `K` when at least one
other item with the query's label appears among its top-`K` ranked
neighbours. -/
def hitAtK (embs : List (List ℚ)) (labels : List ℕ) (q k : ℕ) : Bool :=
  (List.range embs.length).any (fun j =>
    decide (j ≠ q) && decide (labels.getD j 0 = labels.getD q 0) && decide (rankOf embs q j < k))

/-- Modelled from the spec: recall@K as a fraction, the proportion of
queries that are hits at `K`. -/
def recallAtK (embs : List (List ℚ)) (labels : List ℕ) (k : ℕ) : ℚ :=
  (((List.range embs.length).countP (fun q => hitAtK embs labels q k)) : ℚ) /
    (embs.length : ℚ)

/-- Modelled from the spec: `recall(features, labels, ks)` from
`utils` (not part of the embedded sources) evaluates each requested K
independently and returns the list of recall fractions aligned to
`ks`. -/
def recallM (embs : List (List ℚ)) (labels : List ℕ) (ks : List ℕ) : List ℚ :=
  ks.map (recallAtK embs labels)

/-- The `results` dictionary: the `train_loss` and `train_accuracy`
series plus one `test_recall@K` series per requested K, keyed by K. -/
structure Results where
  train_loss : List ℚ
  train_accuracy : List ℚ
  test_recall : List (ℕ × List ℚ)
deriving DecidableEq, Repr

/-- The `results` dictionary as built at startup (train.py lines
100-102): empty loss/accuracy series and one empty recall series per
requested K. -/
def initResults (ks : List ℕ) : Results :=
  ⟨[], [], ks.map (fun k => (k, []))⟩

/-- Appending this epoch's recall percentages: for each `(k, v)` pair
in order, `results['test_recall@k'].append(v)`. -/
def appendRecalls (r : Results) (ks : List ℕ) (vals : List ℚ) : Results :=
  { r with
    test_recall :=
      (ks.zip vals).foldl
        (fun recs kv =>
          recs.map (fun p => if p.1 = kv.1 then (p.1, p.2 ++ [kv.2]) else p))
        r.test_recall }

/-- The recall series stored for a given K. -/
def Results.recallSeries (r : Results) (k : ℕ) : Option (List ℚ) :=
  (r.test_recall.find? (fun p => p.1 = k)).map Prod.snd

/-- The checkpoint dictionary saved at the end of every epoch
(train.py lines 155-160): epoch index, model state, optimizer state,
and the full results series. -/
structure Checkpoint (M O : Type) where
  epoch : ℕ
  model_state_dict : M
  optimizer_state_dict : O
  results : Results
deriving DecidableEq, Repr

/-- Building the checkpoint dictionary of an epoch. -/
def mkCheckpoint {M O : Type} (epoch : ℕ) (m : M) (o : O) (r : Results) :
    Checkpoint M O :=
  ⟨epoch, m, o, r⟩

/-- The state the startup code leaves behind before entering the epoch
loop: `start_epoch`, the model and optimizer states, the `results`
dictionary and `best_recall`. -/
structure StartState (M O : Type) where
  startEpoch : ℕ
  model : M
  optim : O
  results : Results
  bestRecall : ℚ
deriving DecidableEq, Repr

/-- The startup logic of `__main__` (train.py lines 122-133): if the
file at the checkpoint path exists it is loaded and `start_epoch`,
model state, optimizer state and `results` are taken from it,
otherwise the fresh initial values are kept; `best_recall` is set to
`0.0` afterwards in both cases.  The filesystem is modelled as a map
from paths to the checkpoint stored there, `none` meaning
`os.path.exists` is false. -/
def startup {M O : Type} (fs : String → Option (Checkpoint M O)) (path : String)
    (model0 : M) (optim0 : O) (results0 : Results) : StartState M O :=
  match fs path with
  | some c => ⟨c.epoch + 1, c.model_state_dict, c.optimizer_state_dict, c.results, 0⟩
  | none => ⟨1, model0, optim0, results0, 0⟩

/-- The epoch indices the loop visits:
`range(start_epoch, num_epochs + 1)`. -/
def epochRange (startEpoch numEpochs : ℕ) : List ℕ :=
  List.range' startEpoch (numEpochs + 1 - startEpoch)

/-- Observable actions of one epoch of the loop, in program order. -/
inductive Event where
  | trainStep
  | evalStep
  | schedStep
  | saveStats
  | saveModel
  | saveDatabase
  | saveCheckpoint
deriving DecidableEq, Repr

/-- What one epoch contributes beyond the loop: the training metrics
returned by `train`, the model/optimizer states after that training
step, and the evaluation embedding bank `test` collects for the
`test` evaluation set. -/
structure EpochOutcome (M O : Type) where
  trainLoss : ℚ
  trainAcc : ℚ
  model : M
  optim : O
  bank : List (List ℚ)
deriving DecidableEq, Repr

/-- Mutable loop state of `__main__`: `results`, `best_recall`, and
the current model/optimizer states. -/
structure LoopState (M O : Type) where
  results : Results
  bestRecall : ℚ
  model : M
  optim : O
deriving DecidableEq, Repr

/-- View of the startup state as the state the epoch loop starts
from. -/
def toLoopState {M O : Type} (s : StartState M O) : LoopState M O :=
  ⟨s.results, s.bestRecall, s.model, s.optim⟩

/-- Per-epoch log: the epoch index, the primary value `rank` returned
by `test`, whether the best model/database were written, the event
trace in program order, and the checkpoint written at the end. -/
structure EpochLog (M O : Type) where
  epoch : ℕ
  rank : ℚ
  savedBest : Bool
  events : List Event
  checkpoint : Checkpoint M O
deriving DecidableEq, Repr

/-- One iteration of the epoch loop (train.py lines 134-160): run
`train` and append its metrics; run `test`, which computes the recall
list for the bank, appends the percentages to `results` and returns
`acc_list[0]`; step the scheduler; save statistics; if
`rank > best_recall`, update `best_recall` and save the model and the
database; save the checkpoint. -/
def runEpoch {M O : Type} (labels : List ℕ) (ks : List ℕ) (epoch : ℕ)
    (st : LoopState M O) (out : EpochOutcome M O) :
    LoopState M O × EpochLog M O :=
  let results1 : Results :=
    { st.results with
      train_loss := st.results.train_loss ++ [out.trainLoss],
      train_accuracy := st.results.train_accuracy ++ [out.trainAcc] }
  let accList := recallM out.bank labels ks
  let results2 := appendRecalls results1 ks (accList.map (· * 100))
  let rank := accList.headD 0
  let best1 := if st.bestRecall < rank then rank else st.bestRecall
  let ckpt : Checkpoint M O := mkCheckpoint epoch out.model out.optim results2
  let events :=
    [Event.trainStep, Event.evalStep, Event.schedStep, Event.saveStats] ++
      (if st.bestRecall < rank then [Event.saveModel, Event.saveDatabase] else []) ++
      [Event.saveCheckpoint]
  (⟨results2, best1, out.model, out.optim⟩,
   ⟨epoch, rank, decide (st.bestRecall < rank), events, ckpt⟩)

/-- The epoch loop, numbering epochs from `epoch` upwards and
consuming one `EpochOutcome` per epoch. -/
def runEpochs {M O : Type} (labels : List ℕ) (ks : List ℕ) :
    ℕ → LoopState M O → List (EpochOutcome M O) →
    LoopState M O × List (EpochLog M O)
  | _, st, [] => (st, [])
  | e, st, out :: outs =>
    let p := runEpoch labels ks e st out
    let q := runEpochs labels ks (e + 1) p.1 outs
    (q.1, p.2 :: q.2)

/-- The primary value each epoch's `test` call returns for a given
outcome: the head of the recall list on that epoch's bank. -/
def rankSeq {M O : Type} (labels : List ℕ) (ks : List ℕ)
    (outs : List (EpochOutcome M O)) : List ℚ :=
  outs.map (fun o => (recallM o.bank labels ks).headD 0)

/-- The best-artifact decision sequence of the loop, extracted: given
the running `best_recall` and the sequence of per-epoch primary
values, the flag of each epoch is `best < rank`, and `best_recall` is
updated to `rank` exactly when the flag is set. -/
def epochSaves (best : ℚ) : List ℚ → List Bool
  | [] => []
  | r :: rs => decide (best < r) :: epochSaves (if best < r then r else best) rs

/-- The two learning-rate milestones of `MultiStepLR`
(train.py line 118): `int(0.6 * num_epochs)` and
`int(0.8 * num_epochs)`. -/
def milestones (numEpochs : ℕ) : List ℕ := [3 * numEpochs / 5, 4 * numEpochs / 5]

/-- The decay factor `gamma = 0.1`. -/
def gammaQ : ℚ := 1 / 10

/-- Closed form of `MultiStepLR`: after the scheduler has been stepped
to epoch counter `e`, the learning rate is the initial rate times
`gamma` to the number of milestones not exceeding `e`. -/
def lrAt (lr0 : ℚ) (numEpochs e : ℕ) : ℚ :=
  lr0 * gammaQ ^ ((milestones numEpochs).countP (fun m => decide (m ≤ e)))

/-- A batch together with its flattened-logits NaN flag: the condition
that fires either of the two `raise ValueError` checks. -/
def batchHasNaN (b : BatchData) : Bool :=
  tensorHasNaN b.features || tensorHasNaN b.logits.flatten

/-- The combined loss `class_loss + feature_loss` the loop hands to
`loss.backward()` and `optim.step()` on a batch. -/
def lossOf (crit : Criteria) (b : BatchData) : ℚ :=
  crit.classLoss b.logits b.labels + crit.featureLoss b.features b.labels

/-- The per-batch correct-prediction count
`torch.sum(pred == labels)`. -/
def correctOf (b : BatchData) : ℕ :=
  ((b.logits.map argmaxF).zip b.labels).countP (fun p => decide (p.1 = p.2))

/-- Concrete loss criteria returning constant zero, for instantiating
theorems. -/
def crit0 : Criteria := ⟨fun _ _ => 0, fun _ _ => 0⟩

/-- Concrete loss criteria with distinct nonzero constant values. -/
def crit1 : Criteria := ⟨fun _ _ => 2, fun _ _ => 3⟩

/-- A batch whose embedding tensor contains a positive infinity but no
NaN. -/
def bInf : BatchData := ⟨1, [0], [FVal.posInf], [[FVal.finite 0]]⟩

/-- A batch whose tensors are entirely finite. -/
def b0 : BatchData := ⟨1, [0], [FVal.finite 1], [[FVal.finite 0]]⟩

/-- A batch whose embedding tensor contains a NaN. -/
def bNaN : BatchData := ⟨1, [0], [FVal.nan], [[FVal.finite 0]]⟩

/-- A checkpoint, resumed from epoch 4, whose restored results series
contains the prior primary-recall value 80 for K = 1. -/
def ckptC3 : Checkpoint ℕ ℕ := ⟨4, 7, 9, ⟨[], [], [(1, [80])]⟩⟩

/-- A post-resume epoch outcome whose evaluation bank has recall@1
equal to 2/3 on labels `[0, 0, 1]`. -/
def outC3 : EpochOutcome ℕ ℕ := ⟨1, 50, 7, 9, [[2, 0], [1, 1], [0, 2]]⟩

/-- An evaluation bank on which recall@1 and recall@2 differ. -/
def embsC4 : List (List ℚ) := [[1, 0], [1, 1], [0, 1], [2, 2]]

/-- Labels for `embsC4`. -/
def labelsC4 : List ℕ := [0, 0, 1, 1]

deriving instance DecidableEq for Except

/-- A filesystem holding one concrete epoch-3 checkpoint at every
path, for instantiating the round-trip theorem. -/
def fsC5 : String → Option (Checkpoint ℕ ℕ) :=
  fun _ => some (mkCheckpoint 3 7 9 (initResults [1]))

theorem allFinite_no_nan (t : List FVal) (h : tensorAllFinite t = true) :
    tensorHasNaN t = false := by
  simp only [tensorAllFinite, List.all_eq_true] at h
  simp only [tensorHasNaN, List.any_eq_false]
  intro x hx
  have := h x hx
  cases x <;> simp_all [FVal.isFiniteb, FVal.isNaNb]

theorem processBatch_nan (crit : Criteria) (acc : TrainAcc) (b : BatchData)
    (h : batchHasNaN b = true) : processBatch crit acc b = .error .valueError := by
  simp only [batchHasNaN, Bool.or_eq_true] at h
  by_cases h1 : tensorHasNaN b.features
  · simp [processBatch, h1]
  · rcases h with h | h
    · exact absurd h h1
    · simp [processBatch, h1, h]

theorem processBatch_no_nan (crit : Criteria) (acc : TrainAcc) (b : BatchData)
    (hn : batchHasNaN b = false) (hs : 1 ≤ b.size) :
    processBatch crit acc b =
      .ok (acc.1 + lossOf crit b * (b.size : ℚ), acc.2.1 + correctOf b,
           acc.2.2.1 + b.size, acc.2.2.2 ++ [lossOf crit b]) := by
  simp only [batchHasNaN, Bool.or_eq_false_iff] at hn
  have h3 : ¬ acc.2.2.1 + b.size = 0 := by omega
  simp [processBatch, hn.1, hn.2, h3, lossOf, correctOf]

theorem processBatch_valueError_nan (crit : Criteria) (acc : TrainAcc) (b : BatchData)
    (hp : processBatch crit acc b = .error .valueError) : batchHasNaN b = true := by
  by_cases h1 : tensorHasNaN b.features
  · simp [batchHasNaN, h1]
  · by_cases h2 : tensorHasNaN b.logits.flatten
    · simp [batchHasNaN, h2]
    · exfalso
      simp only [processBatch, h1, h2] at hp
      simp at hp
      split at hp <;> simp_all

theorem processBatch_ok_inv (crit : Criteria) (acc acc2 : TrainAcc) (b : BatchData)
    (h : processBatch crit acc b = .ok acc2) :
    acc2.2.2.2 = acc.2.2.2 ++ [lossOf crit b] ∧ acc2.2.2.1 = acc.2.2.1 + b.size := by
  unfold processBatch at h
  split at h
  · exact absurd h (by simp)
  · split at h
    · exact absurd h (by simp)
    · simp only [] at h
      split at h
      · exact absurd h (by simp)
      · simp only [Except.ok.injEq] at h
        subst h
        exact ⟨rfl, rfl⟩

theorem trainFold_no_nan (crit : Criteria) (bs : List BatchData)
    (h : ∀ b ∈ bs, batchHasNaN b = false) :
    ∀ acc, trainFold crit acc bs ≠ .error .valueError := by
  induction bs with
  | nil => intro acc hc; simp [trainFold] at hc
  | cons b bs ih =>
    intro acc
    cases hp : processBatch crit acc b with
    | error e =>
      simp only [trainFold, hp]
      intro hc
      simp only [Except.error.injEq] at hc
      subst hc
      have := processBatch_valueError_nan crit acc b hp
      rw [h b (List.mem_cons_self b bs)] at this
      exact absurd this (by simp)
    | ok acc1 =>
      simp only [trainFold, hp]
      exact ih (fun b2 m => h b2 (List.mem_cons_of_mem _ m)) acc1

theorem trainFold_nan (crit : Criteria) (bs : List BatchData)
    (hs : ∀ b ∈ bs, 1 ≤ b.size) (hn : ∃ b ∈ bs, batchHasNaN b = true) :
    ∀ acc, trainFold crit acc bs = .error .valueError := by
  induction bs with
  | nil => simp at hn
  | cons b bs ih =>
    intro acc
    by_cases hb : batchHasNaN b = true
    · simp only [trainFold, processBatch_nan crit acc b hb]
    · have hb2 : batchHasNaN b = false := by simpa using hb
      have hsz : 1 ≤ b.size := hs b (List.mem_cons_self b bs)
      simp only [trainFold, processBatch_no_nan crit acc b hb2 hsz]
      refine ih (fun b2 m => hs b2 (List.mem_cons_of_mem _ m)) ?_ _
      rcases hn with ⟨b2, m, hnan⟩
      rcases List.mem_cons.mp m with rfl | m2
      · exact absurd hnan hb
      · exact ⟨b2, m2, hnan⟩

theorem trainFold_ok_steps (crit : Criteria) (bs : List BatchData) :
    ∀ acc acc2, trainFold crit acc bs = .ok acc2 →
      acc2.2.2.2 = acc.2.2.2 ++ bs.map (lossOf crit) := by
  induction bs with
  | nil =>
    intro acc acc2 h
    simp only [trainFold, Except.ok.injEq] at h
    subst h
    simp
  | cons b bs ih =>
    intro acc acc2 h
    cases hp : processBatch crit acc b with
    | error e =>
      simp only [trainFold, hp] at h
      exact absurd h (by simp)
    | ok acc1 =>
      simp only [trainFold, hp] at h
      have h2 := processBatch_ok_inv crit acc acc1 b hp
      have h3 := ih acc1 acc2 h
      rw [h3, h2.1]
      simp

theorem trainFold_ok_of (crit : Criteria) (bs : List BatchData)
    (h : ∀ b ∈ bs, 1 ≤ b.size ∧ batchHasNaN b = false) :
    ∀ acc, ∃ acc2, trainFold crit acc bs = .ok acc2 ∧
      acc2.2.2.1 = acc.2.2.1 + (bs.map (fun b => b.size)).sum := by
  induction bs with
  | nil => intro acc; exact ⟨acc, by simp [trainFold]⟩
  | cons b bs ih =>
    intro acc
    have hb := h b (List.mem_cons_self b bs)
    have hp := processBatch_no_nan crit acc b hb.2 hb.1
    obtain ⟨acc2, hf, hsum⟩ :=
      ih (fun b2 m => h b2 (List.mem_cons_of_mem _ m))
        (acc.1 + lossOf crit b * (b.size : ℚ), acc.2.1 + correctOf b,
         acc.2.2.1 + b.size, acc.2.2.2 ++ [lossOf crit b])
    refine ⟨acc2, ?_, ?_⟩
    · simp only [trainFold, hp]
      exact hf
    · rw [hsum]
      simp only [List.map_cons, List.sum_cons]
      omega

theorem trainLoop_not_valueError (crit : Criteria) (batches : List BatchData)
    (h : ∀ b ∈ batches, batchHasNaN b = false) :
    trainLoop crit batches ≠ .error .valueError := by
  unfold trainLoop
  cases hf : trainFold crit (0, 0, 0, []) batches with
  | error e =>
    intro hc
    simp only [Except.error.injEq] at hc
    subst hc
    exact trainFold_no_nan crit batches h _ hf
  | ok acc =>
    by_cases h0 : acc.2.2.1 = 0 <;> simp [h0]

/-- Claim C1, counterexample: a batch whose embedding tensor contains
a positive infinity (a non-finite value) but no NaN does NOT make the
training step raise; the loop completes normally on it, contradicting
the claim that any non-finite value in embeddings or logits stops the
run. -/
theorem C1_counterexample :
    tensorAllFinite bInf.features = false ∧
    trainLoop crit0 [bInf] = .ok ((0, 100), [0]) := by
  refine ⟨by decide, ?_⟩
  have hp := processBatch_no_nan crit0 (0, 0, 0, []) bInf (by decide) (by decide)
  unfold trainLoop
  simp only [trainFold, hp]
  norm_num [lossOf, correctOf, crit0, bInf, argmaxF, List.countP_cons, List.countP_nil]

/-- Claim C1 (amended): during a training step the `ValueError` is
raised exactly when some batch's embeddings or logits contain a NaN;
infinities alone never trigger it, and for batches whose embeddings
and logits are entirely finite no such error is raised. -/
theorem C1_nan_check (crit : Criteria) (batches : List BatchData) :
    ((∀ b ∈ batches, 1 ≤ b.size) →
      (trainLoop crit batches = .error .valueError ↔
        ∃ b ∈ batches, batchHasNaN b = true)) ∧
    ((∀ b ∈ batches,
        tensorAllFinite b.features = true ∧ tensorAllFinite b.logits.flatten = true) →
      trainLoop crit batches ≠ .error .valueError) := by
  constructor
  · intro hs
    constructor
    · intro h
      by_contra hne
      push_neg at hne
      have hall : ∀ b ∈ batches, batchHasNaN b = false := by
        intro b m
        have := hne b m
        simpa using this
      exact trainLoop_not_valueError crit batches hall h
    · intro hex
      unfold trainLoop
      rw [trainFold_nan crit batches hs hex (0, 0, 0, [])]
  · intro hfin
    refine trainLoop_not_valueError crit batches ?_
    intro b m
    have h1 := allFinite_no_nan _ (hfin b m).1
    have h2 := allFinite_no_nan _ (hfin b m).2
    simp [batchHasNaN, h1, h2]

/-- Witness for `C1_nan_check`: at a concrete NaN batch the error is
raised, by the amended theorem. -/
theorem C1_nan_check_witness :
    trainLoop crit0 [bNaN] = .error .valueError :=
  ((C1_nan_check crit0 [bNaN]).1 (by decide)).mpr ⟨bNaN, by decide, by decide⟩

/-- Claim C7: for every batch, the loss handed to `loss.backward()`
and `optim.step()` is the classification loss plus the metric
(triplet) loss, as an unweighted sum with no mixing coefficient. -/
theorem C7_unweighted_sum (crit : Criteria) (batches : List BatchData)
    (r : (ℚ × ℚ) × List ℚ) (h : trainLoop crit batches = .ok r) :
    r.2 = batches.map
      (fun b => crit.classLoss b.logits b.labels + crit.featureLoss b.features b.labels) := by
  unfold trainLoop at h
  cases hf : trainFold crit (0, 0, 0, []) batches with
  | error e =>
    rw [hf] at h
    exact absurd h (by simp)
  | ok acc =>
    rw [hf] at h
    have hsteps := trainFold_ok_steps crit batches (0, 0, 0, []) acc hf
    split at h
    · exact absurd h (by simp)
    · rename_i x acc2 heq
      injection heq with heq2
      subst heq2
      split at h
      · exact absurd h (by simp)
      · simp only [Except.ok.injEq] at h
        rw [← h, hsteps]
        rfl

/-- Witness for `C7_unweighted_sum`: with constant classification loss
2 and metric loss 3 on one batch, the optimizer is stepped with loss
5 = 2 + 3. -/
theorem C7_unweighted_sum_witness :
    ((((5 : ℚ), (100 : ℚ)), [(5 : ℚ)]) : (ℚ × ℚ) × List ℚ).2 =
      [b0].map
        (fun b => crit1.classLoss b.logits b.labels + crit1.featureLoss b.features b.labels) :=
  C7_unweighted_sum crit1 [b0] (((5 : ℚ), (100 : ℚ)), [(5 : ℚ)]) (by
    have hp := processBatch_no_nan crit1 (0, 0, 0, []) b0 (by decide) (by decide)
    unfold trainLoop
    simp only [trainFold, hp]
    norm_num [lossOf, correctOf, crit1, b0, argmaxF, List.countP_cons, List.countP_nil])

/-- Claim C9: at the start of every training-step call the model is
put in training mode and the normalization layers are then forced back
to inference behaviour, so the resulting mode for the whole epoch has
`training = true` and `bnTraining = false`, even though `net.train()`
alone resets `bnTraining` to `true`. -/
theorem C9_bn_frozen (crit : Criteria) (mode : NetMode) (batches : List BatchData) :
    (train crit mode batches).1 = ⟨true, false⟩ ∧
      (netTrainMode mode).bnTraining = true :=
  ⟨rfl, rfl⟩

/-- Claim C10: with zero batches the epoch-mean computation divides by
a zero sample count and raises; with at least one (well-formed) batch
the means are defined and no division error occurs. -/
theorem C10_zero_batches :
    (∀ crit : Criteria, trainLoop crit [] = .error .zeroDivisionError) ∧
    (∀ (crit : Criteria) (batches : List BatchData), batches ≠ [] →
      (∀ b ∈ batches, 1 ≤ b.size ∧ batchHasNaN b = false) →
      ∃ r, trainLoop crit batches = .ok r) := by
  constructor
  · intro crit; rfl
  · intro crit batches hne h
    obtain ⟨acc2, hf, hsum⟩ := trainFold_ok_of crit batches h (0, 0, 0, [])
    have hpos : acc2.2.2.1 ≠ 0 := by
      rw [hsum]
      rcases batches with _ | ⟨b, bs⟩
      · exact absurd rfl hne
      · have := (h b (List.mem_cons_self b bs)).1
        simp only [List.map_cons, List.sum_cons]
        omega
    refine ⟨((acc2.1 / (acc2.2.2.1 : ℚ), (acc2.2.1 : ℚ) / (acc2.2.2.1 : ℚ) * 100),
      acc2.2.2.2), ?_⟩
    unfold trainLoop
    rw [hf]
    exact if_neg hpos

/-- Witness for `C10_zero_batches`: the nonempty-loader conjunct at a
concrete one-batch loader. -/
theorem C10_zero_batches_witness :
    ∃ r, trainLoop crit1 [b0] = .ok r :=
  C10_zero_batches.2 crit1 [b0] (by decide) (by decide)

theorem runEpochs_savedFlags {M O : Type} (labels ks : List ℕ) :
    ∀ (outs : List (EpochOutcome M O)) (e : ℕ) (st : LoopState M O),
      (runEpochs labels ks e st outs).2.map (fun l => l.savedBest) =
        epochSaves st.bestRecall (rankSeq labels ks outs) := by
  intro outs
  induction outs with
  | nil => intro e st; rfl
  | cons o os ih =>
    intro e st
    show (runEpoch labels ks e st o).2.savedBest ::
        ((runEpochs labels ks (e + 1) (runEpoch labels ks e st o).1 os).2.map
          (fun l => l.savedBest)) = _
    rw [ih]
    rfl

theorem runEpochs_epochIndices {M O : Type} (labels ks : List ℕ) :
    ∀ (outs : List (EpochOutcome M O)) (e : ℕ) (st : LoopState M O),
      (runEpochs labels ks e st outs).2.map (fun l => l.epoch) =
        List.range' e outs.length := by
  intro outs
  induction outs with
  | nil => intro e st; rfl
  | cons o os ih =>
    intro e st
    show e :: ((runEpochs labels ks (e + 1) (runEpoch labels ks e st o).1 os).2.map
        (fun l => l.epoch)) = _
    rw [ih, List.length_cons, List.range'_succ]

theorem epochSaves_getElem :
    ∀ (rs : List ℚ) (b : ℚ) (i : ℕ) (r : ℚ), rs[i]? = some r →
      (epochSaves b rs)[i]? = some (decide ((rs.take i).foldl max b < r)) := by
  intro rs
  induction rs with
  | nil => intro b i r h; simp at h
  | cons x t ih =>
    intro b i r h
    cases i with
    | zero =>
      simp only [List.getElem?_cons_zero, Option.some.injEq] at h
      subst h
      simp [epochSaves]
    | succ i =>
      simp only [List.getElem?_cons_succ] at h
      have hmax : max b x = if b < x then x else b := by
        by_cases hb : b < x
        · simp [hb, max_eq_right hb.le]
        · simp [hb, max_eq_left (not_lt.mp hb)]
      have hrec := ih (if b < x then x else b) i r h
      rw [show epochSaves b (x :: t) =
            decide (b < x) :: epochSaves (if b < x then x else b) t from rfl,
        List.getElem?_cons_succ, List.take_succ_cons, List.foldl_cons, hmax]
      exact hrec

/-- Claim C2, counterexample: with a nonempty resume path whose file
does not exist, startup raises no error and silently falls back to
fresh training: epoch 1, the initial model/optimizer states and the
initial empty results. -/
theorem C2_counterexample :
    ("missing.pth" : String) ≠ "" ∧
    startup (M := ℕ) (O := ℕ) (fun _ => none) "missing.pth" 7 8 (initResults [1, 2, 4, 8]) =
      ⟨1, 7, 8, initResults [1, 2, 4, 8], 0⟩ :=
  ⟨by decide, rfl⟩

/-- Claim C2 (amended): if the file at the checkpoint path exists it
is loaded; otherwise — even when a resume path was explicitly
supplied — training silently starts fresh at epoch 1 with the initial
model, optimizer and results, and no error is raised. -/
theorem C2_silent_fresh_start {M O : Type} (fs : String → Option (Checkpoint M O))
    (path : String) (m0 : M) (o0 : O) (r0 : Results) (h : fs path = none) :
    startup fs path m0 o0 r0 = ⟨1, m0, o0, r0, 0⟩ := by
  unfold startup
  rw [h]

/-- Witness for `C2_silent_fresh_start` at a concrete absent file. -/
theorem C2_silent_fresh_start_witness :
    startup (M := ℕ) (O := ℕ) (fun _ => none) "ck.pth" 3 4 (initResults [1]) =
      ⟨1, 3, 4, initResults [1], 0⟩ :=
  C2_silent_fresh_start (fun _ => none) "ck.pth" 3 4 (initResults [1]) rfl

/-- Claim C5: restoring a saved epoch-`e` checkpoint reproduces the
identical epoch index, model parameters, optimizer state and results
series; the resumed loop begins at epoch `e + 1`; and the checkpoint
the loop saves in an epoch carries that epoch's index and
post-training state. -/
theorem C5_checkpoint_roundtrip {M O : Type} (fs : String → Option (Checkpoint M O))
    (path : String) (e : ℕ) (m : M) (o : O) (r : Results) (m0 : M) (o0 : O) (r0 : Results)
    (n : ℕ) (labels ks : List ℕ)
    (h : fs path = some (mkCheckpoint e m o r)) (hn : e + 1 ≤ n) :
    (startup fs path m0 o0 r0).startEpoch = e + 1 ∧
    (startup fs path m0 o0 r0).model = m ∧
    (startup fs path m0 o0 r0).optim = o ∧
    (startup fs path m0 o0 r0).results = r ∧
    (epochRange (startup fs path m0 o0 r0).startEpoch n).head? = some (e + 1) ∧
    (∀ (ep : ℕ) (st : LoopState M O) (out : EpochOutcome M O),
      (runEpoch labels ks ep st out).2.checkpoint =
        mkCheckpoint ep out.model out.optim ((runEpoch labels ks ep st out).1.results)) ∧
    (∀ (st : LoopState M O) (outs : List (EpochOutcome M O)),
      (runEpochs labels ks (startup fs path m0 o0 r0).startEpoch st outs).2.map
          (fun l => l.epoch) = List.range' (e + 1) outs.length) := by
  have hs : startup fs path m0 o0 r0 = ⟨e + 1, m, o, r, 0⟩ := by
    unfold startup
    rw [h]
    rfl
  rw [hs]
  refine ⟨rfl, rfl, rfl, rfl, ?_, ?_, ?_⟩
  · unfold epochRange
    have h2 : n + 1 - (e + 1) = (n - e - 1) + 1 := by omega
    rw [h2, List.range'_succ]
    rfl
  · intro ep st out
    rfl
  · intro st outs
    exact runEpochs_epochIndices labels ks outs (e + 1) st

/-- Witness for `C5_checkpoint_roundtrip` at a concrete epoch-3
checkpoint. -/
theorem C5_checkpoint_roundtrip_witness :
    (startup fsC5 "ck" 0 0 (initResults [1])).startEpoch = 3 + 1 ∧
    (startup fsC5 "ck" 0 0 (initResults [1])).model = 7 ∧
    (startup fsC5 "ck" 0 0 (initResults [1])).optim = 9 ∧
    (startup fsC5 "ck" 0 0 (initResults [1])).results = initResults [1] ∧
    (epochRange (startup fsC5 "ck" 0 0 (initResults [1])).startEpoch 10).head? =
      some (3 + 1) ∧
    (∀ (ep : ℕ) (st : LoopState ℕ ℕ) (out : EpochOutcome ℕ ℕ),
      (runEpoch [0] [1] ep st out).2.checkpoint =
        mkCheckpoint ep out.model out.optim ((runEpoch [0] [1] ep st out).1.results)) ∧
    (∀ (st : LoopState ℕ ℕ) (outs : List (EpochOutcome ℕ ℕ)),
      (runEpochs [0] [1] (startup fsC5 "ck" 0 0 (initResults [1])).startEpoch st outs).2.map
          (fun l => l.epoch) = List.range' (3 + 1) outs.length) :=
  C5_checkpoint_roundtrip fsC5 "ck" 3 7 9 (initResults [1]) 0 0 (initResults [1]) 10
    [0] [1] rfl (by decide)

/-- Claim C6: in a fresh run (no checkpoint file) the loop starts at
epoch 1 with best-recall 0; the best artifact (model weights and
database together) is written in an epoch exactly when that epoch's
primary recall strictly exceeds the running maximum of 0 and all
earlier primary recalls; on the sequence `[10, 15, 15, 20, 18]` the
writes fall exactly on epochs 1, 2 and 4. -/
theorem C6_best_strict_improvement {M O : Type} (fs : String → Option (Checkpoint M O))
    (path : String) (m0 : M) (o0 : O) (r0 : Results) (labels ks : List ℕ)
    (outs : List (EpochOutcome M O)) (h : fs path = none) :
    (startup fs path m0 o0 r0).bestRecall = 0 ∧
    (startup fs path m0 o0 r0).startEpoch = 1 ∧
    ((runEpochs labels ks (startup fs path m0 o0 r0).startEpoch
        (toLoopState (startup fs path m0 o0 r0)) outs).2.map (fun l => l.savedBest) =
      epochSaves 0 (rankSeq labels ks outs)) ∧
    (∀ (ep : ℕ) (st : LoopState M O) (out : EpochOutcome M O),
      ((runEpoch labels ks ep st out).2.savedBest = true ↔
        Event.saveModel ∈ (runEpoch labels ks ep st out).2.events ∧
          Event.saveDatabase ∈ (runEpoch labels ks ep st out).2.events)) ∧
    (∀ (rs : List ℚ) (i : ℕ) (r : ℚ), rs[i]? = some r →
      (epochSaves 0 rs)[i]? = some (decide ((rs.take i).foldl max 0 < r))) ∧
    epochSaves 0 [10, 15, 15, 20, 18] = [true, true, false, true, false] := by
  have hs : startup fs path m0 o0 r0 = ⟨1, m0, o0, r0, 0⟩ := by
    unfold startup
    rw [h]
  rw [hs]
  refine ⟨rfl, rfl, ?_, ?_, ?_, ?_⟩
  · exact runEpochs_savedFlags labels ks outs 1 (toLoopState ⟨1, m0, o0, r0, 0⟩)
  · intro ep st out
    by_cases hb : st.bestRecall < (recallM out.bank labels ks).headD 0 <;>
      simp [runEpoch, hb]
  · intro rs i r hr
    exact epochSaves_getElem rs 0 i r hr
  · norm_num [epochSaves]

/-- Witness for `C6_best_strict_improvement` at a concrete fresh
startup. -/
theorem C6_best_strict_improvement_witness :
    (startup (M := ℕ) (O := ℕ) (fun _ => none) "p" 0 0 (initResults [1])).bestRecall = 0 ∧
    (startup (M := ℕ) (O := ℕ) (fun _ => none) "p" 0 0 (initResults [1])).startEpoch = 1 ∧
    ((runEpochs [0] [1] (startup (M := ℕ) (O := ℕ) (fun _ => none) "p" 0 0
          (initResults [1])).startEpoch
        (toLoopState (startup (fun _ => none) "p" 0 0 (initResults [1])))
        ([] : List (EpochOutcome ℕ ℕ))).2.map (fun l => l.savedBest) =
      epochSaves 0 (rankSeq [0] [1] ([] : List (EpochOutcome ℕ ℕ)))) ∧
    (∀ (ep : ℕ) (st : LoopState ℕ ℕ) (out : EpochOutcome ℕ ℕ),
      ((runEpoch [0] [1] ep st out).2.savedBest = true ↔
        Event.saveModel ∈ (runEpoch [0] [1] ep st out).2.events ∧
          Event.saveDatabase ∈ (runEpoch [0] [1] ep st out).2.events)) ∧
    (∀ (rs : List ℚ) (i : ℕ) (r : ℚ), rs[i]? = some r →
      (epochSaves 0 rs)[i]? = some (decide ((rs.take i).foldl max 0 < r))) ∧
    epochSaves 0 [10, 15, 15, 20, 18] = [true, true, false, true, false] :=
  C6_best_strict_improvement (fun _ => none) "p" 0 0 (initResults [1]) [0] [1] [] rfl

/-- Claim C3, counterexample: resuming from a checkpoint whose
restored series contains the prior primary-recall value 80 (percent),
a post-resume epoch with primary recall 2/3 (66.7 percent, strictly
below the restored best) still writes the best artifact, because
`best_recall` is reset to 0 on startup. -/
theorem C3_counterexample :
    ((runEpochs [0, 0, 1] [1]
        (startup (fun _ => some ckptC3) "ck.pth" 0 0 (initResults [1])).startEpoch
        (toLoopState (startup (fun _ => some ckptC3) "ck.pth" 0 0 (initResults [1])))
        [outC3]).2.map (fun l => l.savedBest) = [true]) ∧
    ((runEpochs [0, 0, 1] [1]
        (startup (fun _ => some ckptC3) "ck.pth" 0 0 (initResults [1])).startEpoch
        (toLoopState (startup (fun _ => some ckptC3) "ck.pth" 0 0 (initResults [1])))
        [outC3]).2.map (fun l => l.rank) = [2 / 3]) ∧
    ckptC3.results.recallSeries 1 = some [80] ∧
    ((2 : ℚ) / 3) * 100 < 80 := by
  have hr : recallM [[2, 0], [1, 1], [0, 2]] [0, 0, 1] [1] = [2 / 3] := by
    norm_num [recallM, recallAtK, hitAtK, rankOf, simDot, List.range_succ]
  refine ⟨?_, ?_, rfl, by norm_num⟩
  · show [decide ((0 : ℚ) <
        (recallM [[2, 0], [1, 1], [0, 2]] [0, 0, 1] [1]).headD 0)] = [true]
    rw [hr]
    norm_num [List.headD_cons, decide_eq_true_eq]
  · show [(recallM [[2, 0], [1, 1], [0, 2]] [0, 0, 1] [1]).headD 0] = [2 / 3]
    rw [hr]
    rfl

/-- Claim C3 (amended): when training resumes from a checkpoint the
best-so-far baseline restarts at 0 — the restored results series is
not consulted — and the best artifact is written in a later epoch
exactly when that epoch's primary recall strictly exceeds the maximum
of 0 and the primary recalls observed since resuming. -/
theorem C3_baseline_reset {M O : Type} (fs : String → Option (Checkpoint M O))
    (path : String) (c : Checkpoint M O) (m0 : M) (o0 : O) (r0 : Results)
    (labels ks : List ℕ) (outs : List (EpochOutcome M O)) (h : fs path = some c) :
    (startup fs path m0 o0 r0).bestRecall = 0 ∧
    (startup fs path m0 o0 r0).results = c.results ∧
    ((runEpochs labels ks (startup fs path m0 o0 r0).startEpoch
        (toLoopState (startup fs path m0 o0 r0)) outs).2.map (fun l => l.savedBest) =
      epochSaves 0 (rankSeq labels ks outs)) ∧
    (∀ (b : ℚ) (rs : List ℚ) (i : ℕ) (r : ℚ), rs[i]? = some r →
      (epochSaves b rs)[i]? = some (decide ((rs.take i).foldl max b < r))) := by
  have hs : startup fs path m0 o0 r0 =
      ⟨c.epoch + 1, c.model_state_dict, c.optimizer_state_dict, c.results, 0⟩ := by
    unfold startup
    rw [h]
  rw [hs]
  refine ⟨rfl, rfl, ?_, ?_⟩
  · exact runEpochs_savedFlags labels ks outs (c.epoch + 1)
      (toLoopState ⟨c.epoch + 1, c.model_state_dict, c.optimizer_state_dict, c.results, 0⟩)
  · intro b rs i r hr
    exact epochSaves_getElem rs b i r hr

/-- Witness for `C3_baseline_reset` at the concrete checkpoint
`ckptC3`. -/
theorem C3_baseline_reset_witness :
    (startup (fun _ => some ckptC3) "ck.pth" 0 0 (initResults [1])).bestRecall = 0 ∧
    (startup (fun _ => some ckptC3) "ck.pth" 0 0 (initResults [1])).results =
      ckptC3.results ∧
    ((runEpochs [0, 0, 1] [1]
        (startup (fun _ => some ckptC3) "ck.pth" 0 0 (initResults [1])).startEpoch
        (toLoopState (startup (fun _ => some ckptC3) "ck.pth" 0 0 (initResults [1])))
        ([] : List (EpochOutcome ℕ ℕ))).2.map (fun l => l.savedBest) =
      epochSaves 0 (rankSeq [0, 0, 1] [1] ([] : List (EpochOutcome ℕ ℕ)))) ∧
    (∀ (b : ℚ) (rs : List ℚ) (i : ℕ) (r : ℚ), rs[i]? = some r →
      (epochSaves b rs)[i]? = some (decide ((rs.take i).foldl max b < r))) :=
  C3_baseline_reset (fun _ => some ckptC3) "ck.pth" ckptC3 0 0 (initResults [1])
    [0, 0, 1] [1] [] rfl

set_option maxHeartbeats 2000000 in
/-- Claim C4, counterexample: with the unsorted K list `[2, 1]` the
value used for the best-artifact comparison is recall@2 = 3/4 (the
first entry of the list), not recall@1 = 1/4 at the smallest
requested K = 1, and the two differ. -/
theorem C4_counterexample :
    (runEpoch (M := ℕ) (O := ℕ) labelsC4 [2, 1] 1 ⟨initResults [2, 1], 0, 0, 0⟩
        ⟨0, 0, 0, 0, embsC4⟩).2.rank = 3 / 4 ∧
    recallAtK embsC4 labelsC4 1 = 1 / 4 ∧
    (1 ∈ ([2, 1] : List ℕ) ∧ ∀ k2 ∈ ([2, 1] : List ℕ), 1 ≤ k2) ∧
    ((3 : ℚ) / 4 ≠ 1 / 4) := by
  have hr4 : recallM embsC4 labelsC4 [2, 1] = [3 / 4, 1 / 4] := by
    norm_num [recallM, recallAtK, hitAtK, rankOf, simDot, embsC4, labelsC4,
      List.range_succ]
  have h2 : recallAtK embsC4 labelsC4 1 = 1 / 4 := by
    rw [show recallM embsC4 labelsC4 [2, 1] =
          [recallAtK embsC4 labelsC4 2, recallAtK embsC4 labelsC4 1] from rfl] at hr4
    simp only [List.cons.injEq, and_true] at hr4
    exact hr4.2
  refine ⟨?_, h2, ⟨by decide, by decide⟩, by norm_num⟩
  show (recallM embsC4 labelsC4 [2, 1]).headD 0 = 3 / 4
  rw [hr4]
  rfl

/-- Claim C4 (amended): the primary value compared against the best
is the recall at the FIRST K in the requested list; when the smallest
requested K is first (in particular for an ascending-sorted list),
this is the recall at the smallest requested K. -/
theorem C4_primary_is_first_k {M O : Type} (labels ks : List ℕ) (k : ℕ) (ep : ℕ)
    (st : LoopState M O) (out : EpochOutcome M O)
    (hh : ks.head? = some k) (hmin : ∀ k2 ∈ ks, k ≤ k2) :
    (runEpoch labels ks ep st out).2.rank = recallAtK out.bank labels k ∧
    k ∈ ks ∧ (∀ k2 ∈ ks, k ≤ k2) := by
  cases ks with
  | nil => simp at hh
  | cons k0 t =>
    simp only [List.head?_cons, Option.some.injEq] at hh
    subst hh
    exact ⟨rfl, List.mem_cons_self _ _, hmin⟩

/-- Witness for `C4_primary_is_first_k` at the sorted default K list
`[1, 2, 4, 8]`. -/
theorem C4_primary_is_first_k_witness :
    (runEpoch (M := ℕ) (O := ℕ) [0] [1, 2, 4, 8] 1 ⟨initResults [1, 2, 4, 8], 0, 0, 0⟩
        ⟨0, 0, 0, 0, [[1]]⟩).2.rank = recallAtK [[1]] [0] 1 ∧
    1 ∈ ([1, 2, 4, 8] : List ℕ) ∧ (∀ k2 ∈ ([1, 2, 4, 8] : List ℕ), 1 ≤ k2) :=
  C4_primary_is_first_k [0] [1, 2, 4, 8] 1 1 ⟨initResults [1, 2, 4, 8], 0, 0, 0⟩
    ⟨0, 0, 0, 0, [[1]]⟩ rfl (by decide)

/-- Claim C8: the learning-rate schedule is the deterministic
epoch-indexed closed form of `MultiStepLR` with milestones at
`int(0.6 * num_epochs)` and `int(0.8 * num_epochs)`: it is constant
except at the two (distinct, for at least 5 epochs) milestones, where
it decays by the factor `gamma = 1/10`; and every epoch of the loop
steps the scheduler exactly once, directly after the evaluation
step. -/
theorem C8_lr_schedule (n : ℕ) (h5 : 5 ≤ n) :
    milestones n = [3 * n / 5, 4 * n / 5] ∧
    3 * n / 5 < 4 * n / 5 ∧
    1 ≤ 3 * n / 5 ∧
    (∀ (lr0 : ℚ) (e : ℕ),
      lrAt lr0 n (e + 1) =
        (if e + 1 = 3 * n / 5 ∨ e + 1 = 4 * n / 5 then gammaQ else 1) * lrAt lr0 n e) ∧
    (∀ (M O : Type) (labels ks : List ℕ) (ep : ℕ)
        (st : LoopState M O) (out : EpochOutcome M O),
      (runEpoch labels ks ep st out).2.events.take 4 =
          [Event.trainStep, Event.evalStep, Event.schedStep, Event.saveStats] ∧
      Event.schedStep ∉ (runEpoch labels ks ep st out).2.events.drop 4) := by
  have hlt : 3 * n / 5 < 4 * n / 5 := by omega
  refine ⟨rfl, hlt, by omega, ?_, ?_⟩
  · intro lr0 e
    have cnt : ∀ t : ℕ, ((milestones n).countP (fun m => decide (m ≤ t))) =
        (if 3 * n / 5 ≤ t then 1 else 0) + (if 4 * n / 5 ≤ t then 1 else 0) := by
      intro t
      by_cases a : 3 * n / 5 ≤ t <;> by_cases b : 4 * n / 5 ≤ t <;>
        simp [milestones, List.countP_cons, List.countP_nil, a, b]
    rw [lrAt, lrAt, cnt, cnt]
    by_cases hb : 4 * n / 5 ≤ e
    · have ha : 3 * n / 5 ≤ e := by omega
      have h1 : 3 * n / 5 ≤ e + 1 := by omega
      have h2 : 4 * n / 5 ≤ e + 1 := by omega
      have hne : ¬ (e + 1 = 3 * n / 5 ∨ e + 1 = 4 * n / 5) := by omega
      simp [ha, hb, h1, h2, hne]
    · by_cases heb : e + 1 = 4 * n / 5
      · have ha : 3 * n / 5 ≤ e := by omega
        have h1 : 3 * n / 5 ≤ e + 1 := by omega
        have h2 : 4 * n / 5 ≤ e + 1 := by omega
        have hor : e + 1 = 3 * n / 5 ∨ e + 1 = 4 * n / 5 := Or.inr heb
        simp [ha, hb, h1, h2, hor]
        ring
      · have h2 : ¬ (4 * n / 5 ≤ e + 1) := by omega
        by_cases ha : 3 * n / 5 ≤ e
        · have h1 : 3 * n / 5 ≤ e + 1 := by omega
          have hne : ¬ (e + 1 = 3 * n / 5 ∨ e + 1 = 4 * n / 5) := by omega
          simp [ha, hb, h1, h2, hne]
        · by_cases hea : e + 1 = 3 * n / 5
          · have h1 : 3 * n / 5 ≤ e + 1 := by omega
            have hor : e + 1 = 3 * n / 5 ∨ e + 1 = 4 * n / 5 := Or.inl hea
            simp [ha, hb, h1, h2, hor]
            ring
          · have h1 : ¬ (3 * n / 5 ≤ e + 1) := by omega
            have hne : ¬ (e + 1 = 3 * n / 5 ∨ e + 1 = 4 * n / 5) := by omega
            simp [ha, hb, h1, h2, hne]
  · intro M O labels ks ep st out
    refine ⟨rfl, ?_⟩
    show Event.schedStep ∉
      ((if st.bestRecall < (recallM out.bank labels ks).headD 0 then
          [Event.saveModel, Event.saveDatabase] else []) ++ [Event.saveCheckpoint])
    by_cases hb : st.bestRecall < (recallM out.bank labels ks).headD 0
    · rw [if_pos hb]
      decide
    · rw [if_neg hb]
      decide

/-- Witness for `C8_lr_schedule` at the default epoch count 20. -/
theorem C8_lr_schedule_witness :
    (5 ≤ 20) ∧
    (milestones 20 = [3 * 20 / 5, 4 * 20 / 5] ∧
     3 * 20 / 5 < 4 * 20 / 5 ∧
     1 ≤ 3 * 20 / 5 ∧
     (∀ (lr0 : ℚ) (e : ℕ),
       lrAt lr0 20 (e + 1) =
         (if e + 1 = 3 * 20 / 5 ∨ e + 1 = 4 * 20 / 5 then gammaQ else 1) *
           lrAt lr0 20 e) ∧
     (∀ (M O : Type) (labels ks : List ℕ) (ep : ℕ)
         (st : LoopState M O) (out : EpochOutcome M O),
       (runEpoch labels ks ep st out).2.events.take 4 =
           [Event.trainStep, Event.evalStep, Event.schedStep, Event.saveStats] ∧
       Event.schedStep ∉ (runEpoch labels ks ep st out).2.events.drop 4)) :=
  ⟨by decide, C8_lr_schedule 20 (by decide)⟩

end CGD
